import Mathlib

/-!
Shallow embedding of the osm-meet-your-mappers ingestion pipeline.

The definitions below are translated from the Python sources:
  * `Parsers`       — `osm_meet_your_mappers/parsers.py` (`parse_changeset`, `parse_datetime`)
  * `DbUtils`       — `osm_meet_your_mappers/db_utils.py` (`upsert_changesets`)
  * `ArchiveLoader` — `scripts/archive_loader.py` (`parse_changeset`, `create_geometry`)
  * `CatchUp`       — `catch_up.py` (`insert_changesets`)
  * `Backfill`      — `scripts/backfill.py` (`process_replication_content`,
                      `process_sequence`, retry scheduling)

Machine conventions: timestamps are integers (only their order matters),
coordinates are rationals, XML attributes are modelled by `Attr`:
`absent` (attribute missing, or an empty string where Python truthiness is
tested), `invalid` (present but the conversion such as `int(...)`,
`float(...)` or ISO-8601 parsing fails), `valid a` (present and converted
to `a`).  The database is a list of rows looked up by id.
-/

/-- Timestamps: only ordering and equality of datetimes matter. -/
abbrev Time := Int

/-- An XML attribute as seen through a fallible conversion. -/
inductive Attr (α : Type) where
  | absent
  | invalid
  | valid (a : α)
deriving DecidableEq

/-- Geometry emitted for the bounding box (WKT in the source). -/
inductive Geom where
  | point (x y : ℚ)
  | box (minLon minLat maxLon maxLat : ℚ)
deriving DecidableEq

/-- A `tag` child element: `k` and `v` attributes (`absent` also stands for
an empty string, which Python's `if k and v` treats like a missing one). -/
structure TagElem where
  k : Option String
  v : Option String
deriving DecidableEq

/-- A `discussion/comment` child element. -/
structure CommentElem where
  uid : Attr Int
  username : Option String
  date : Attr Time
  text : Option String
deriving DecidableEq

/-- A `changeset` XML element with the attributes the parsers read. -/
structure ChangesetElem where
  id : Attr Int
  min_lon : Attr ℚ
  min_lat : Attr ℚ
  max_lon : Attr ℚ
  max_lat : Attr ℚ
  user : Option String
  uid : Attr Int
  created_at : Attr Time
  closed_at : Attr Time
  openAttr : Option String
  num_changes : Attr Int
  comments_count : Attr Int
  tags : List TagElem
  comments : List CommentElem
deriving DecidableEq

/-- A parsed discussion comment as built by `parsers.parse_changeset`. -/
structure CommentRec where
  uid : Int
  username : String
  date : Option Time
  text : String
deriving DecidableEq

/-- A parsed changeset record (the dict built by `parsers.parse_changeset`);
`upsert_changesets` consumes the same shape, and a database row stores it. -/
structure ChangesetRec where
  id : Int
  username : Option String
  uid : Int
  created_at : Option Time
  closed_at : Option Time
  «open» : Bool
  num_changes : Int
  comments_count : Int
  tags : List (String × String)
  comments : List CommentRec
  bbox : Geom
deriving DecidableEq

/-- Python's built-in `abs`, written so that it evaluates by kernel
reduction (it agrees with `|x|`, see `pyAbs_eq_abs`). -/
def pyAbs (x : ℚ) : ℚ :=
  if x < 0 then -x else x

/-- Python's `str.lower()` on attribute values (per-character lowering). -/
def pyLower (s : String) : String :=
  ⟨s.data.map Char.toLower⟩

namespace Parsers

/-- `int(elem.attrib.get(name, 0))`: missing attribute defaults to `0`;
an unconvertible value raises, which the caller's `except` turns into a
skipped element (`none`). -/
def attrInt (a : Attr Int) : Option Int :=
  match a with
  | .absent => some 0
  | .invalid => none
  | .valid n => some n

/-- `float(elem.attrib.get(name, 0))`, same failure convention. -/
def attrFloat (a : Attr ℚ) : Option ℚ :=
  match a with
  | .absent => some 0
  | .invalid => none
  | .valid x => some x

/-- `parse_datetime(elem.attrib.get(name))`: missing or unparseable dates
both come back as `None` (the helper logs and swallows the exception). -/
def attrTime (a : Attr Time) : Option Time :=
  match a with
  | .absent => none
  | .invalid => none
  | .valid t => some t

/-- Python dict insertion for tags: a duplicate key keeps its position and
takes the last value. -/
def insertTag (tags : List (String × String)) (k v : String) : List (String × String) :=
  if tags.any (fun p => p.1 = k) then
    tags.map (fun p => if p.1 = k then (k, v) else p)
  else
    tags ++ [(k, v)]

/-- The tag loop of `parse_changeset`: `if k and v: tags[k] = v`. -/
def parseTags (ts : List TagElem) : List (String × String) :=
  ts.foldl
    (fun acc t =>
      match t.k, t.v with
      | some k, some v => if k ≠ "" ∧ v ≠ "" then insertTag acc k v else acc
      | _, _ => acc)
    []

/-- One iteration of the comment loop.  `int(uid)` may raise and
`parse_datetime(date).isoformat()` raises on an unparseable date; either
error is caught and the comment is dropped (`none`). -/
def parseComment (c : CommentElem) : Option CommentRec :=
  match c.uid with
  | .invalid => none
  | .absent =>
    match c.date with
    | .invalid => none
    | .absent => some ⟨0, c.username.getD "", none, c.text.getD ""⟩
    | .valid d => some ⟨0, c.username.getD "", some d, c.text.getD ""⟩
  | .valid u =>
    match c.date with
    | .invalid => none
    | .absent => some ⟨u, c.username.getD "", none, c.text.getD ""⟩
    | .valid d => some ⟨u, c.username.getD "", some d, c.text.getD ""⟩

/-- `osm_meet_your_mappers/parsers.py::parse_changeset`.  Returns `none`
exactly where the Python returns `None`: invalid or non-positive id, a
coordinate that fails `float()` or its range check, a missing or
unparseable `closed_at`, or an `int()` failure on `uid` / `num_changes`
reaching the outer `except`. -/
def parse_changeset (e : ChangesetElem) : Option ChangesetRec :=
  match attrInt e.id with
  | none => none
  | some cs_id =>
    if cs_id ≤ 0 then none
    else
      match attrFloat e.min_lon, attrFloat e.min_lat,
            attrFloat e.max_lon, attrFloat e.max_lat with
      | some min_lon, some min_lat, some max_lon, some max_lat =>
        if ¬(-180 ≤ min_lon ∧ min_lon ≤ 180) ∨ ¬(-180 ≤ max_lon ∧ max_lon ≤ 180) ∨
           ¬(-90 ≤ min_lat ∧ min_lat ≤ 90) ∨ ¬(-90 ≤ max_lat ∧ max_lat ≤ 90) then
          none
        else
          match attrTime e.closed_at with
          | none => none
          | some closed =>
            match attrInt e.uid, attrInt e.num_changes with
            | some uid, some num_changes =>
              some
                { id := cs_id
                  username := e.user
                  uid := uid
                  created_at := attrTime e.created_at
                  closed_at := some closed
                  «open» := pyLower (e.openAttr.getD "false") = "true"
                  num_changes := num_changes
                  comments_count := (e.comments.filterMap parseComment).length
                  tags := parseTags e.tags
                  comments := e.comments.filterMap parseComment
                  bbox :=
                    if pyAbs (min_lon - max_lon) < 1 / 10000000 ∧
                       pyAbs (min_lat - max_lat) < 1 / 10000000 then
                      Geom.point min_lon min_lat
                    else
                      Geom.box min_lon min_lat max_lon max_lat }
            | _, _ => none
      | _, _, _, _ => none

end Parsers

namespace DbUtils

/-- The `changesets` table, looked up by primary key `id`. -/
abbrev Store := List ChangesetRec

/-- `SELECT ... FROM changesets WHERE id = ...`. -/
def lookup (store : Store) (i : Int) : Option ChangesetRec :=
  store.find? (fun r => r.id = i)

/-- The pre-insert filter of `upsert_changesets`: a record already present
is dropped when the stored row is closed and the incoming one is open, or
when the stored row has strictly more comments. -/
def keepRecord (store : Store) (cs : ChangesetRec) : Bool :=
  match lookup store cs.id with
  | none => true
  | some existing =>
    if existing.closed_at.isSome ∧ cs.closed_at.isNone then false
    else if cs.comments_count < existing.comments_count then false
    else true

/-- The `ON CONFLICT (id) DO UPDATE SET ...` clause, applied to the stored
row (`changesets.*`) and the incoming record (`EXCLUDED.*`).  Note the
unconditional `comments = changesets.comments || EXCLUDED.comments`. -/
def updateRow (existing cs : ChangesetRec) : ChangesetRec :=
  { id := existing.id
    username := cs.username
    uid := cs.uid
    created_at := cs.created_at
    closed_at :=
      match existing.closed_at, cs.closed_at with
      | none, c => c
      | some t, none => some t
      | some _, some c => some c
    «open» := if cs.«open» = false then false else existing.«open»
    num_changes := cs.num_changes
    comments_count := cs.comments_count
    tags := cs.tags
    comments := existing.comments ++ cs.comments
    bbox := cs.bbox }

/-- One row of the multi-row `INSERT ... VALUES ... ON CONFLICT` statement:
insert when the id is absent, otherwise apply the `DO UPDATE` clause. -/
def applyRow (store : Store) (cs : ChangesetRec) : Store :=
  match lookup store cs.id with
  | none => store ++ [cs]
  | some _ => store.map (fun r => if r.id = cs.id then updateRow r cs else r)

/-- `db_utils.upsert_changesets`.  `dbOk` models whether the transaction
commits; on failure the transaction is rolled back and — the `except`
clause only logs — no error reaches the caller, hence the second component
(the exception propagated to the caller) is always `none`. -/
def upsert_changesets (dbOk : Bool) (store : Store) (cs_batch : List ChangesetRec) :
    Store × Option String :=
  if cs_batch.isEmpty then (store, none)
  else
    let filtered_batch := cs_batch.filter (keepRecord store)
    if filtered_batch.isEmpty then (store, none)
    else if dbOk then (filtered_batch.foldl applyRow store, none)
    else (store, none)

end DbUtils

namespace CatchUp

/-- A row of the legacy `changesets` table written by `catch_up.py` (the
columns its `ON CONFLICT DO UPDATE` sets). -/
structure Row where
  id : Int
  user : Option String
  uid : Int
  created_at : Option Time
  closed_at : Option Time
  «open» : Bool
  min_lat : ℚ
  min_lon : ℚ
  max_lat : ℚ
  max_lon : ℚ
deriving DecidableEq

abbrev Store := List Row

def lookup (store : Store) (i : Int) : Option Row :=
  store.find? (fun r => r.id = i)

/-- `catch_up.insert_changesets`: for each changeset an
`INSERT ... ON CONFLICT (id) DO UPDATE` that overwrites every listed
column — including `closed_at` — with the excluded (incoming) value.
Tags and comments live in side tables (deleted and re-inserted) and are
not modelled here.  Returns the store and the function's boolean result
(`True` on commit). -/
def insert_changesets (store : Store) (changesets : List Row) : Store × Bool :=
  (changesets.foldl
    (fun st cs =>
      match lookup st cs.id with
      | none => st ++ [cs]
      | some _ => st.map (fun r => if r.id = cs.id then cs else r))
    store, true)

end CatchUp

namespace Backfill

/-- Sequence-row status values written by `scripts/backfill.py`. -/
inductive SeqStatus where
  | pending
  | processing
  | backfilled
  | empty
  | failed
deriving DecidableEq

/-- The `should_process` decision of `process_replication_content`, taken
against the `existing_data` snapshot queried before the loop. -/
def shouldProcess (existing : Int → Option ChangesetRec) (cs : ChangesetRec) : Bool :=
  match existing cs.id with
  | none => true
  | some ex =>
    if ex.closed_at.isSome ∧ cs.closed_at.isNone then false
    else if cs.comments_count < ex.comments_count then false
    else true

/-- Loop state of `process_replication_content`: the pending batch, the
running insert counter, the `all_old` flag and the evolving store. -/
structure PrcState where
  cs_batch : List ChangesetRec
  inserted : Nat
  all_old : Bool
  store : DbUtils.Store
deriving DecidableEq

/-- One iteration of the changeset loop in `process_replication_content`,
including the flush of a full batch through `upsert_changesets`. -/
def prcStep (existing : Int → Option ChangesetRec) (cutoff : Time) (batch_size : Nat)
    (dbOk : Bool) (st : PrcState) (cs : ChangesetRec) : PrcState :=
  let st1 :=
    match cs.closed_at with
    | some c =>
      if c ≤ cutoff then
        if shouldProcess existing cs ∧ (existing cs.id).isNone then
          { st with all_old := false, cs_batch := st.cs_batch ++ [cs] }
        else st
      else
        if shouldProcess existing cs then
          { st with all_old := false, cs_batch := st.cs_batch ++ [cs] }
        else st
    | none =>
      if shouldProcess existing cs then
        { st with all_old := false, cs_batch := st.cs_batch ++ [cs] }
      else st
  if batch_size ≤ st1.cs_batch.length then
    { cs_batch := []
      inserted := st1.inserted + st1.cs_batch.length
      all_old := st1.all_old
      store := (DbUtils.upsert_changesets dbOk st1.store st1.cs_batch).1 }
  else st1

/-- `backfill.process_replication_content`: parse the stream, snapshot the
existing rows, filter and upsert in batches, and report
`(inserted_count, reached_cutoff, conn)`. -/
def process_replication_content (dbOk : Bool) (store : DbUtils.Store)
    (elems : List ChangesetElem) (batch_size : Nat) (cutoff : Time) :
    Nat × Bool × DbUtils.Store :=
  let all_changesets := elems.filterMap Parsers.parse_changeset
  if all_changesets.isEmpty then (0, false, store)
  else
    let existing := fun i => DbUtils.lookup store i
    let final :=
      all_changesets.foldl (prcStep existing cutoff batch_size dbOk)
        { cs_batch := [], inserted := 0, all_old := true, store := store }
    if final.cs_batch.isEmpty then
      (final.inserted, final.all_old && decide (0 < all_changesets.length), final.store)
    else
      (final.inserted + final.cs_batch.length,
       final.all_old && decide (0 < all_changesets.length),
       (DbUtils.upsert_changesets dbOk final.store final.cs_batch).1)

/-- What the replication fetch of one sequence produced: HTTP 404, some
other failure (network, gzip, stream parse), or a decompressed list of
changeset elements. -/
inductive FetchResult where
  | notFound
  | fetchError (msg : String)
  | ok (elems : List ChangesetElem)
deriving DecidableEq

/-- `MAX_RETRIES` (configuration default `3`). -/
def MAX_RETRIES : Nat := 3

/-- Outcome of `backfill.process_sequence` for one sequence number: the
final status written to the `sequences` row, the store after the call, the
retry count pushed to the retry queue (if any), and the returned
`reached_cutoff` flag. -/
structure SeqOutcome where
  status : SeqStatus
  store : DbUtils.Store
  retryScheduled : Option Nat
  returnedCutoff : Bool
deriving DecidableEq

/-- `backfill.process_sequence`.  A 404 marks the row `empty` with no
writes and no retry; any other fetch error marks it `failed` and schedules
a retry while `retry_count < MAX_RETRIES`; otherwise the content is
processed and the row becomes `backfilled` or `empty`. -/
def process_sequence (fetch : FetchResult) (dbOk : Bool) (store : DbUtils.Store)
    (batch_size : Nat) (cutoff : Time) (retry_count : Nat) : SeqOutcome :=
  match fetch with
  | .notFound =>
    { status := .empty, store := store, retryScheduled := none, returnedCutoff := false }
  | .fetchError _ =>
    { status := .failed
      store := store
      retryScheduled := if retry_count < MAX_RETRIES then some (retry_count + 1) else none
      returnedCutoff := false }
  | .ok elems =>
    let res := process_replication_content dbOk store elems batch_size cutoff
    if res.2.1 then
      { status := .backfilled, store := res.2.2, retryScheduled := none, returnedCutoff := true }
    else if 0 < res.1 then
      { status := .backfilled, store := res.2.2, retryScheduled := none, returnedCutoff := false }
    else
      { status := .empty, store := res.2.2, retryScheduled := none, returnedCutoff := false }

end Backfill

namespace Backfill

/-- Retry bookkeeping for a single sequence number: its current row status,
how many times `process_sequence` has run for it, and the retry counts
currently sitting in the retry queue for it (retry times are abstracted
away: the priority queue releases every entry eventually). -/
structure RetryState where
  status : SeqStatus
  attempts : Nat
  queue : List Nat
deriving DecidableEq

/-- Events that drive one sequence's retry lifecycle.  `initial` is the
scheduler handing the sequence out for the first time (each number is
enqueued once); `dispatch` is the retry manager releasing the next queued
entry to a worker; `scan` is the periodic database scan of the retry
manager.  The boolean says whether that `process_sequence` run fails. -/
inductive REvent where
  | initial (fails : Bool)
  | dispatch (fails : Bool)
  | scan
deriving DecidableEq

/-- One run of `process_sequence` at the given `retry_count`: on failure
the row becomes `failed` and, while `retry_count < MAX_RETRIES`, the
sequence is put back on the retry queue with `retry_count + 1`; on success
the row becomes `backfilled`. -/
def attemptOnce (s : RetryState) (retry_count : Nat) (fails : Bool) : RetryState :=
  if fails then
    { status := .failed
      attempts := s.attempts + 1
      queue := if retry_count < MAX_RETRIES then s.queue ++ [retry_count + 1] else s.queue }
  else
    { status := .backfilled, attempts := s.attempts + 1, queue := s.queue }

/-- Transition of the retry system.  The `scan` branch is
`retry_manager_thread`'s periodic check: any `failed` sequence not already
in the retry queue is re-enqueued with `retry_count = 1`. -/
def rstep (s : RetryState) (e : REvent) : RetryState :=
  match e with
  | .initial fails => if s.attempts = 0 then attemptOnce s 0 fails else s
  | .dispatch fails =>
    match s.queue with
    | [] => s
    | r :: rest => attemptOnce { s with queue := rest } r fails
  | .scan =>
    if s.status = .failed ∧ s.queue = [] then { s with queue := [1] } else s

/-- The retry lifecycle of one sequence, starting before any attempt. -/
def runRetry (evs : List REvent) : RetryState :=
  evs.foldl rstep { status := .pending, attempts := 0, queue := [] }

end Backfill

namespace ArchiveLoader

/-- A `changesets` row as built by `scripts/archive_loader.py`. -/
structure Row where
  id : Int
  username : Option String
  uid : Int
  created_at : Option Time
  closed_at : Option Time
  «open» : Bool
  num_changes : Int
  comments_count : Int
  min_lat : ℚ
  min_lon : ℚ
  max_lat : ℚ
  max_lon : ℚ
  bbox : Geom
deriving DecidableEq

/-- A `changeset_tags` row. -/
structure TagRow where
  changeset_id : Int
  k : String
  v : Option String
deriving DecidableEq

/-- A `changeset_comments` row. -/
structure CommentRow where
  changeset_id : Int
  uid : Int
  username : Option String
  date : Option Time
  text : Option String
deriving DecidableEq

/-- `archive_loader.create_geometry`: POINT when both spans are within
`1e-7`, else the envelope polygon.  (Defined in the file but not called by
its `parse_changeset`.) -/
def create_geometry (min_lon min_lat max_lon max_lat : ℚ) : Geom :=
  if pyAbs (min_lon - max_lon) < 1 / 10000000 ∧ pyAbs (min_lat - max_lat) < 1 / 10000000 then
    Geom.point min_lon min_lat
  else
    Geom.box min_lon min_lat max_lon max_lat

/-- The tag list comprehension: `tag.attrib["k"]` raises `KeyError` when
`k` is missing, aborting the element (the producer catches and skips). -/
def parseTagRows (cs_id : Int) (ts : List TagElem) : Option (List TagRow) :=
  ts.mapM (fun t => t.k.map (fun k => TagRow.mk cs_id k t.v))

/-- The comment loop: `int(comment.attrib.get("uid", 0))` raises on an
unconvertible uid, aborting the element; dates fall back to `None`. -/
def parseCommentRows (cs_id : Int) (cmts : List CommentElem) : Option (List CommentRow) :=
  cmts.mapM
    (fun c =>
      (Parsers.attrInt c.uid).map
        (fun u => CommentRow.mk cs_id u c.username (Parsers.attrTime c.date) c.text))

/-- `archive_loader.parse_changeset`.  Returns `none` both for the
`(None, [], [])` result on a non-positive id and for an uncaught
conversion error (`int`/`float`/`KeyError`), which the producer logs and
skips.  The inline geometry choice compares `min_lon` with `min_lat` and
`max_lon` with `max_lat` rather than using `create_geometry`. -/
def parse_changeset (e : ChangesetElem) :
    Option (Row × List TagRow × List CommentRow) :=
  match Parsers.attrInt e.id with
  | none => none
  | some cs_id =>
    if cs_id ≤ 0 then none
    else
      match Parsers.attrFloat e.min_lon, Parsers.attrFloat e.min_lat,
            Parsers.attrFloat e.max_lon, Parsers.attrFloat e.max_lat with
      | some min_lon, some min_lat, some max_lon, some max_lat =>
        match Parsers.attrInt e.uid, Parsers.attrInt e.num_changes,
              Parsers.attrInt e.comments_count with
        | some uid, some num_changes, some comments_count =>
          match parseTagRows cs_id e.tags, parseCommentRows cs_id e.comments with
          | some tagRows, some commentRows =>
            some
              ({ id := cs_id
                 username := e.user
                 uid := uid
                 created_at := Parsers.attrTime e.created_at
                 closed_at := Parsers.attrTime e.closed_at
                 «open» := pyLower (e.openAttr.getD "") = "true"
                 num_changes := num_changes
                 comments_count := comments_count
                 min_lat := min_lat
                 min_lon := min_lon
                 max_lat := max_lat
                 max_lon := max_lon
                 bbox :=
                   if min_lon ≠ min_lat ∧ max_lon ≠ max_lat then
                     Geom.box min_lon min_lat max_lon max_lat
                   else
                     Geom.point min_lon min_lat },
               tagRows, commentRows)
          | _, _ => none
        | _, _, _ => none
      | _, _, _, _ => none

end ArchiveLoader

namespace Backfill

/-- Whether one changeset leaves the `all_old` flag of
`process_replication_content` untouched (its per-element contribution to
`reached_cutoff`). -/
def keepsOld (existing : Int → Option ChangesetRec) (cutoff : Time) (cs : ChangesetRec) : Bool :=
  match cs.closed_at with
  | some c =>
    if c ≤ cutoff then !(shouldProcess existing cs && (existing cs.id).isNone)
    else !(shouldProcess existing cs)
  | none => !(shouldProcess existing cs)

/-- Bookkeeping measure for the retry analysis: attempts already spent plus
the attempts the queued entries can still trigger. -/
def retryPotential (s : RetryState) : Nat :=
  s.attempts + (s.queue.map (fun r => MAX_RETRIES + 1 - r)).sum

/-- Invariant of the retry lifecycle in the absence of `scan` events. -/
def RetryInv (s : RetryState) : Prop :=
  retryPotential s ≤ MAX_RETRIES + 1 ∧
  (∀ r ∈ s.queue, 1 ≤ r ∧ r ≤ MAX_RETRIES) ∧
  (s.attempts = 0 → s.queue = [])

end Backfill

/-- The value Python's `float(elem.attrib.get(name, 0))` produces when it
does not raise: the coordinate, or the `0` default. -/
def coordVal (a : Attr ℚ) : ℚ :=
  match a with
  | .valid x => x
  | _ => 0

/-- The skip conditions of claim C4, amended to what the code tests:
bad id, bad coordinate, missing or unparseable `closed_at`, or an integer
conversion error on `uid` / `num_changes`. -/
def SkipConditions (e : ChangesetElem) : Prop :=
  (e.id = .absent ∨ e.id = .invalid ∨ ∃ n, e.id = Attr.valid n ∧ n ≤ 0) ∨
  (e.min_lon = .invalid ∨ e.min_lat = .invalid ∨ e.max_lon = .invalid ∨ e.max_lat = .invalid) ∨
  (¬(-180 ≤ coordVal e.min_lon ∧ coordVal e.min_lon ≤ 180) ∨
   ¬(-180 ≤ coordVal e.max_lon ∧ coordVal e.max_lon ≤ 180) ∨
   ¬(-90 ≤ coordVal e.min_lat ∧ coordVal e.min_lat ≤ 90) ∨
   ¬(-90 ≤ coordVal e.max_lat ∧ coordVal e.max_lat ≤ 90)) ∨
  (e.closed_at = .absent ∨ e.closed_at = .invalid) ∨
  e.uid = .invalid ∨ e.num_changes = .invalid

/-- A changeset element whose attributes are all valid and closed; the
base fixture the concrete test inputs below are variations of. -/
def baseElem : ChangesetElem :=
  { id := .valid 1
    min_lon := .absent
    min_lat := .absent
    max_lon := .absent
    max_lat := .absent
    user := some "a"
    uid := .valid 7
    created_at := .valid 0
    closed_at := .valid 20
    openAttr := none
    num_changes := .valid 1
    comments_count := .absent
    tags := []
    comments := [] }

/-- A closed changeset record with one discussion comment (the parse of a
replication element carrying one comment). -/
def c1cs : ChangesetRec :=
  { id := 1
    username := some "a"
    uid := 7
    created_at := some 0
    closed_at := some 5
    «open» := false
    num_changes := 1
    comments_count := 1
    tags := []
    comments := [⟨9, "u", some 2, "hi"⟩]
    bbox := Geom.point 0 0 }

/-- A record that is open (`open=true`) yet carries a non-null
`closed_at` — the shape that breaks the closed-state invariant. -/
def c2OpenCs : ChangesetRec :=
  { c1cs with «open» := true, comments := [], comments_count := 0 }

/-- A stored row for the `catch_up.py` table, closed at time 5. -/
def c2Row : CatchUp.Row :=
  { id := 1, user := some "a", uid := 7, created_at := some 0, closed_at := some 5,
    «open» := false, min_lat := 0, min_lon := 0, max_lat := 0, max_lon := 0 }

/-- An incoming open version (null `closed_at`) of the same changeset. -/
def c2NullCs : CatchUp.Row :=
  { c2Row with closed_at := none, «open» := true }

/-- A well-behaved record used to instantiate the amended C2 theorem. -/
def c2w : ChangesetRec :=
  { c1cs with comments := [], comments_count := 0 }

/-- An existing row for C3: closed long ago but with five comments. -/
def c3Row : ChangesetRec :=
  { c1cs with closed_at := some 0, comments := [], comments_count := 5 }

/-- An element for C4: open, without a `closed_at` attribute, and with a
perfectly parseable id, coordinates and `created_at`. -/
def c4OpenElem : ChangesetElem :=
  { baseElem with closed_at := .absent, openAttr := some "true" }

/-- An element for C4 whose `created_at` does not parse. -/
def c4BadCreatedElem : ChangesetElem :=
  { baseElem with created_at := .invalid }

/-- The degenerate box at longitude 180 from the claim C5 boundary case. -/
def c5Elem180 : ChangesetElem :=
  { baseElem with min_lon := .valid 180, max_lon := .valid 180,
                  min_lat := .valid 0, max_lat := .valid 0 }

/-- A five-degree-wide box whose corners sit on the diagonal. -/
def c5Elem55 : ChangesetElem :=
  { baseElem with min_lon := .valid 0, max_lon := .valid 5,
                  min_lat := .valid 0, max_lat := .valid 5 }

/-- An element carrying one discussion comment plus a `comments_count`
attribute, used to instantiate C9. -/
def c9Elem : ChangesetElem :=
  { baseElem with comments_count := .valid 42,
                  comments := [⟨.valid 9, some "cu", .valid 5, some "txt"⟩] }

/-- The record `parse_changeset` produces for `c9Elem`. -/
def c9Rec : ChangesetRec :=
  { id := 1
    username := some "a"
    uid := 7
    created_at := some 0
    closed_at := some 20
    «open» := false
    num_changes := 1
    comments_count := 1
    tags := []
    comments := [⟨9, "cu", some 5, "txt"⟩]
    bbox := Geom.point 0 0 }

theorem attrInt_eq_none_iff (a : Attr Int) : Parsers.attrInt a = none ↔ a = .invalid := by
  cases a <;> simp [Parsers.attrInt]

theorem attrFloat_eq_none_iff (a : Attr ℚ) : Parsers.attrFloat a = none ↔ a = .invalid := by
  cases a <;> simp [Parsers.attrFloat]

theorem attrFloat_eq_some (a : Attr ℚ) (x : ℚ) (h : Parsers.attrFloat a = some x) :
    coordVal a = x := by
  cases a <;> simp_all [Parsers.attrFloat, coordVal]

theorem attrTime_eq_none_iff (a : Attr Time) :
    Parsers.attrTime a = none ↔ a = .absent ∨ a = .invalid := by
  cases a <;> simp [Parsers.attrTime]

theorem attrInt_of_valid_pos (a : Attr Int) (n : Int) (hn : a = Attr.valid n) :
    Parsers.attrInt a = some n := by
  subst hn; rfl

/-- Every record `parsers.parse_changeset` emits carries a non-null
`closed_at` (the parser drops elements without one). -/
theorem parse_closed_at_isSome (e : ChangesetElem) (r : ChangesetRec)
    (h : Parsers.parse_changeset e = some r) : r.closed_at.isSome := by
  unfold Parsers.parse_changeset at h
  repeat' split at h
  all_goals try exact Option.noConfusion h
  all_goals simp only [Option.some.injEq] at h
  all_goals subst h
  all_goals rfl

/-- C1.  The claim asserts that re-running a batch leaves the store
unchanged.  The code violates it: the filter passes a record whose
`comments_count` equals the stored one, and the SQL `comments =
changesets.comments || EXCLUDED.comments` append is unconditional, so the
second run of the same one-record batch appends the same comment again
(one comment becomes two identical ones), while `comments_count` stays 1. -/
theorem c1_repeated_upsert_duplicates_comments :
    (DbUtils.upsert_changesets true (DbUtils.upsert_changesets true [] [c1cs]).1 [c1cs]).1 ≠
      (DbUtils.upsert_changesets true [] [c1cs]).1 ∧
    (DbUtils.upsert_changesets true [] [c1cs]).1.map (fun r => r.comments.length) = [1] ∧
    (DbUtils.upsert_changesets true
        (DbUtils.upsert_changesets true [] [c1cs]).1 [c1cs]).1.map
      (fun r => r.comments.length) = [2] ∧
    (DbUtils.upsert_changesets true
        (DbUtils.upsert_changesets true [] [c1cs]).1 [c1cs]).1.map
      (fun r => r.comments_count) = [1] := by
  decide

/-- C2 counterexample.  The claim as stated fails twice on the code:
`db_utils.upsert_changesets` happily inserts a record that is open yet has
a non-null `closed_at`, leaving a row with `closed_at` non-null and
`open = true`; and the legacy `catch_up.insert_changesets` regresses a
non-null `closed_at` to null by overwriting it with the excluded value. -/
theorem c2_counterexample :
    (DbUtils.upsert_changesets true [] [c2OpenCs]).1 = [c2OpenCs] ∧
    c2OpenCs.closed_at = some 5 ∧ c2OpenCs.«open» = true ∧
    (CatchUp.insert_changesets [c2Row] [c2NullCs]).1.map (fun r => r.closed_at) = [none] ∧
    c2Row.closed_at = some 5 := by
  decide

/-- C3 counterexample.  `reached_cutoff` is also reported when a changeset
is newer than `cutoff_date` but skipped by the reconciliation rules: here
the single parsed changeset has `closed_at = 20 > cutoff 10`, yet the
stored row has more comments (5 > 0), so `all_old` survives and
`reached_cutoff = true`, contradicting the claim's "every changeset ...
had closed_at older-or-equal to cutoff_date". -/
theorem c3_counterexample :
    (Backfill.process_replication_content true [c3Row] [baseElem] 1000 10).2.1 = true ∧
    ([baseElem].filterMap Parsers.parse_changeset).map (fun cs => cs.closed_at) = [some 20] ∧
    ¬((20 : Time) ≤ 10) ∧
    DbUtils.lookup [c3Row] 1 = some c3Row ∧ c3Row.comments_count = 5 := by
  decide

/-- C4 counterexample.  An element with a valid positive id, in-range
(default) coordinates, a parseable `created_at`, `open=true` and no
`closed_at` is skipped by the parser — the claim says it must yield a
record; conversely an element whose `created_at` is unparseable yields a
record — the claim says it must be skipped. -/
theorem c4_counterexample :
    Parsers.parse_changeset c4OpenElem = none ∧
    c4OpenElem.id = Attr.valid 1 ∧ c4OpenElem.created_at = Attr.valid 0 ∧
    c4OpenElem.openAttr = some "true" ∧ c4OpenElem.closed_at = Attr.absent ∧
    (Parsers.parse_changeset c4BadCreatedElem).isSome = true ∧
    c4BadCreatedElem.created_at = Attr.invalid := by
  decide

/-- C5.  `archive_loader.parse_changeset` chooses POINT iff
`min_lon ≠ min_lat ∧ max_lon ≠ max_lat` — comparing longitudes with
latitudes.  The claim's boundary case `min_lon=max_lon=180,
min_lat=max_lat=0` therefore produces the degenerate POLYGON
`box(180,0,180,0)`, not POINT(180 0), even though the unused
`create_geometry` helper in the same file and the replication parser
(`parsers.py`) both return POINT(180 0); and a 5°×5° box produces
POINT(0 0) because its corners sit on the diagonal. -/
theorem c5_archive_geometry_bug :
    (ArchiveLoader.parse_changeset c5Elem180).map (fun p => p.1.bbox) =
      some (Geom.box 180 0 180 0) ∧
    ArchiveLoader.create_geometry 180 0 180 0 = Geom.point 180 0 ∧
    (Parsers.parse_changeset c5Elem180).map (fun r => r.bbox) = some (Geom.point 180 0) ∧
    (ArchiveLoader.parse_changeset c5Elem55).map (fun p => p.1.bbox) =
      some (Geom.point 0 0) ∧
    ¬(pyAbs ((0 : ℚ) - 5) < 1 / 10000000) := by
  refine ⟨by decide, ?_, ?_, by decide, by norm_num [pyAbs]⟩
  · norm_num [ArchiveLoader.create_geometry, pyAbs]
  · norm_num [Parsers.parse_changeset, c5Elem180, baseElem, Parsers.attrInt,
      Parsers.attrFloat, Parsers.attrTime, Parsers.parseTags, Parsers.parseComment, pyAbs]

/-- C6.  The rollback half of the claim holds, but the error never reaches
the caller: `upsert_changesets` catches the transaction failure, rolls
back and returns normally (second component `none`), so
`process_sequence` counts the batch as inserted and marks the sequence
`backfilled` — not `failed` — and schedules no retry. -/
theorem c6_db_failure_swallowed :
    (DbUtils.upsert_changesets false [] [c1cs]).1 = [] ∧
    (DbUtils.upsert_changesets false [] [c1cs]).2 = none ∧
    (Backfill.process_sequence (.ok [baseElem]) false [] 1000 10 0).status =
      Backfill.SeqStatus.backfilled ∧
    (Backfill.process_sequence (.ok [baseElem]) false [] 1000 10 0).store = [] ∧
    Backfill.SeqStatus.backfilled ≠ Backfill.SeqStatus.failed := by
  decide

/-- C7.  A 404 (`FileNotFoundError` in `download_and_decompress`) makes
`process_sequence` mark the row `empty`, write nothing, and schedule no
retry, whatever the store, batch size, cutoff or retry count. -/
theorem c7_notFound_marks_empty_no_retry (dbOk : Bool) (store : DbUtils.Store)
    (batch_size : Nat) (cutoff : Time) (retry_count : Nat) :
    Backfill.process_sequence .notFound dbOk store batch_size cutoff retry_count =
      { status := .empty, store := store, retryScheduled := none, returnedCutoff := false } :=
  rfl

/-- C8 counterexample.  After the worker path exhausts its retries
(`MAX_RETRIES + 1 = 4` attempts, row `failed`, retry queue empty), the
retry manager's periodic database scan re-enqueues the failed sequence
with `retry_count = 1`, and a fifth attempt happens — the claim says a
sequence is attempted at most `max_retries + 1` times and never
re-attempted once exhausted. -/
theorem c8_counterexample :
    (Backfill.runRetry
        [.initial true, .dispatch true, .dispatch true, .dispatch true]).attempts =
      Backfill.MAX_RETRIES + 1 ∧
    (Backfill.runRetry
        [.initial true, .dispatch true, .dispatch true, .dispatch true]).status =
      Backfill.SeqStatus.failed ∧
    (Backfill.runRetry
        [.initial true, .dispatch true, .dispatch true, .dispatch true]).queue = [] ∧
    (Backfill.runRetry
        [.initial true, .dispatch true, .dispatch true, .dispatch true,
         .scan, .dispatch true]).attempts = Backfill.MAX_RETRIES + 2 := by
  decide

/-- C9.  In every record the parser returns, `comments_count` equals the
length of the parsed comments list, and the `comments_count` XML attribute
is ignored: changing it never changes the parse result. -/
theorem c9_comments_count_matches :
    (∀ e r, Parsers.parse_changeset e = some r →
      r.comments_count = r.comments.length) ∧
    (∀ e a, Parsers.parse_changeset { e with comments_count := a } =
      Parsers.parse_changeset e) := by
  constructor
  · intro e r h
    unfold Parsers.parse_changeset at h
    repeat' split at h
    all_goals try exact Option.noConfusion h
    all_goals simp only [Option.some.injEq] at h
    all_goals subst h
    all_goals rfl
  · intro e a
    rfl

/-- C9 witness: the concrete element `c9Elem` parses to `c9Rec`, whose
`comments_count` equals the length of its single-comment list, and its
`comments_count` attribute (42, or 99) is ignored. -/
theorem c9_comments_count_witness :
    c9Rec.comments_count = c9Rec.comments.length ∧
    Parsers.parse_changeset { c9Elem with comments_count := Attr.valid 99 } =
      Parsers.parse_changeset c9Elem :=
  ⟨c9_comments_count_matches.1 c9Elem c9Rec (by
      norm_num [Parsers.parse_changeset, c9Elem, baseElem, c9Rec, Parsers.attrInt,
        Parsers.attrFloat, Parsers.attrTime, Parsers.parseTags, Parsers.parseComment, pyAbs]
      decide),
   c9_comments_count_matches.2 c9Elem (Attr.valid 99)⟩

/-- C10.  An element with no bounding-box attributes but a positive id, a
present and parseable `closed_at`, and convertible `uid` / `num_changes`
is not skipped: its coordinates default to 0 and its geometry is
POINT(0 0). -/
theorem c10_missing_bbox_yields_point_zero (e : ChangesetElem)
    (h1 : e.min_lon = Attr.absent) (h2 : e.min_lat = Attr.absent)
    (h3 : e.max_lon = Attr.absent) (h4 : e.max_lat = Attr.absent)
    (hid : ∃ n, e.id = Attr.valid n ∧ 0 < n)
    (hcl : ∃ t, e.closed_at = Attr.valid t)
    (huid : e.uid ≠ Attr.invalid) (hnum : e.num_changes ≠ Attr.invalid) :
    (Parsers.parse_changeset e).map (fun r => r.bbox) = some (Geom.point 0 0) := by
  obtain ⟨n, hn, hpos⟩ := hid
  obtain ⟨t, ht⟩ := hcl
  rcases hu : e.uid with _ | _ | u <;> rcases hm : e.num_changes with _ | _ | m <;>
    first
      | exact absurd hu huid
      | exact absurd hm hnum
      | (simp [Parsers.parse_changeset, hn, h1, h2, h3, h4, ht, hu, hm, Parsers.attrInt,
          Parsers.attrFloat, Parsers.attrTime, hpos.not_le]
         norm_num [pyAbs])

/-- C10 witness: `baseElem` has no bounding-box attributes and parses to a
record with geometry POINT(0 0). -/
theorem c10_witness :
    (Parsers.parse_changeset baseElem).map (fun r => r.bbox) = some (Geom.point 0 0) :=
  c10_missing_bbox_yields_point_zero baseElem rfl rfl rfl rfl
    ⟨1, rfl, by norm_num⟩ ⟨20, rfl⟩ (by decide) (by decide)

/-- Helper: whenever the parser skips an element, one of the amended skip
conditions holds. -/
theorem parse_none_skip_conditions (e : ChangesetElem)
    (h : Parsers.parse_changeset e = none) : SkipConditions e := by
  unfold Parsers.parse_changeset at h
  repeat' split at h
  all_goals try exact Option.noConfusion h
  case h_1 =>
    rename_i x hid
    exact Or.inl (Or.inr (Or.inl ((attrInt_eq_none_iff _).mp hid)))
  case h_2.isTrue =>
    rename_i x cs_id hid hle
    rcases he : e.id with _ | _ | n
    · exact Or.inl (Or.inl he)
    · exact Or.inl (Or.inr (Or.inl he))
    · refine Or.inl (Or.inr (Or.inr ⟨n, he, ?_⟩))
      rw [he] at hid
      simp only [Parsers.attrInt, Option.some.injEq] at hid
      omega
  case h_2.isFalse.h_2 =>
    rename_i x cs_id hid hle x4 x3 x2 x1 hall
    rcases hf1 : Parsers.attrFloat e.min_lon with _ | v1
    · exact Or.inr (Or.inl (Or.inl ((attrFloat_eq_none_iff _).mp hf1)))
    · rcases hf2 : Parsers.attrFloat e.min_lat with _ | v2
      · exact Or.inr (Or.inl (Or.inr (Or.inl ((attrFloat_eq_none_iff _).mp hf2))))
      · rcases hf3 : Parsers.attrFloat e.max_lon with _ | v3
        · exact Or.inr (Or.inl (Or.inr (Or.inr (Or.inl ((attrFloat_eq_none_iff _).mp hf3)))))
        · rcases hf4 : Parsers.attrFloat e.max_lat with _ | v4
          · exact Or.inr (Or.inl (Or.inr (Or.inr (Or.inr ((attrFloat_eq_none_iff _).mp hf4)))))
          · exact (hall v1 v2 v3 v4 hf1 hf2 hf3 hf4).elim
  case h_2.isFalse.h_1.isTrue =>
    rename_i x cs_id hid hle x4 x3 x2 x1 mlon mlat xlon xlat hq1 hq2 hq3 hq4 hcond
    refine Or.inr (Or.inr (Or.inl ?_))
    rw [attrFloat_eq_some _ _ hq1, attrFloat_eq_some _ _ hq2,
        attrFloat_eq_some _ _ hq3, attrFloat_eq_some _ _ hq4]
    exact hcond
  case h_2.isFalse.h_1.isFalse.h_1 =>
    rename_i x cs_id hid hle x4 x3 x2 x1 mlon mlat xlon xlat hq1 hq2 hq3 hq4 hcond xc hcl
    exact Or.inr (Or.inr (Or.inr (Or.inl ((attrTime_eq_none_iff _).mp hcl))))
  case h_2.isFalse.h_1.isFalse.h_2.h_2 =>
    rename_i x cs_id hid hle x4 x3 x2 x1 mlon mlat xlon xlat hq1 hq2 hq3 hq4 hcond xc
      closed hcl xu xn hall
    rcases hu : Parsers.attrInt e.uid with _ | u
    · exact Or.inr (Or.inr (Or.inr (Or.inr (Or.inl ((attrInt_eq_none_iff _).mp hu)))))
    · rcases hn2 : Parsers.attrInt e.num_changes with _ | m
      · exact Or.inr (Or.inr (Or.inr (Or.inr (Or.inr ((attrInt_eq_none_iff _).mp hn2)))))
      · exact (hall u m hu hn2).elim

/-- Helper: whenever the parser yields a record, none of the amended skip
conditions holds. -/
theorem parse_some_not_skip_conditions (e : ChangesetElem) (r : ChangesetRec)
    (hr : Parsers.parse_changeset e = some r) : ¬ SkipConditions e := by
  unfold Parsers.parse_changeset at hr
  repeat' split at hr
  all_goals try exact Option.noConfusion hr
  all_goals
    rename_i x1 cs_id hid hle x2 x3 x4 x5 mlon mlat xlon xlat hq1 hq2 hq3 hq4 hrange
      xc closed hcl xu xn uidv numv hqu hqn hbb
  all_goals
    (push_neg at hrange
     rintro ((hs | hs | ⟨m, hs, hm0⟩) | (hs | hs | hs | hs) |
       (hs | hs | hs | hs) | (hs | hs) | hs | hs) <;>
       first
         | (rw [hs] at hid; exact Option.noConfusion hid)
         | (rw [hs] at hid; simp only [Parsers.attrInt, Option.some.injEq] at hid; omega)
         | (rw [hs] at hq1; exact Option.noConfusion hq1)
         | (rw [hs] at hq2; exact Option.noConfusion hq2)
         | (rw [hs] at hq3; exact Option.noConfusion hq3)
         | (rw [hs] at hq4; exact Option.noConfusion hq4)
         | (exact hs (by rw [attrFloat_eq_some _ _ hq1]; exact hrange.1))
         | (exact hs (by rw [attrFloat_eq_some _ _ hq3]; exact hrange.2.1))
         | (exact hs (by rw [attrFloat_eq_some _ _ hq2]; exact hrange.2.2.1))
         | (exact hs (by rw [attrFloat_eq_some _ _ hq4]; exact hrange.2.2.2))
         | (rw [hs] at hcl; exact Option.noConfusion hcl)
         | (rw [hs] at hqu; exact Option.noConfusion hqu)
         | (rw [hs] at hqn; exact Option.noConfusion hqn))

/-- C4, amended.  The parser skips an element exactly when: the id is
missing, non-integer or non-positive; a coordinate fails `float()` or lies
outside its range; `closed_at` is missing or unparseable; or `uid` /
`num_changes` fail `int()`.  In particular an unparseable `created_at`
does not cause a skip, while a missing `closed_at` (every open changeset)
does — unlike the claim's conditions. -/
theorem c4_amended_skip_iff (e : ChangesetElem) :
    Parsers.parse_changeset e = none ↔ SkipConditions e := by
  constructor
  · exact parse_none_skip_conditions e
  · intro hs
    rcases hp : Parsers.parse_changeset e with _ | r
    · rfl
    · exact absurd hs (parse_some_not_skip_conditions e r hp)

/-- Helper: one loop iteration multiplies `all_old` by the changeset's
`keepsOld` contribution. -/
theorem prcStep_all_old (ex : Int → Option ChangesetRec) (cutoff : Time)
    (batch_size : Nat) (dbOk : Bool) (st : Backfill.PrcState) (cs : ChangesetRec) :
    (Backfill.prcStep ex cutoff batch_size dbOk st cs).all_old =
      (st.all_old && Backfill.keepsOld ex cutoff cs) := by
  have hflush : ∀ s : Backfill.PrcState,
      (if batch_size ≤ s.cs_batch.length then
        ({ cs_batch := [], inserted := s.inserted + s.cs_batch.length, all_old := s.all_old,
           store := (DbUtils.upsert_changesets dbOk s.store s.cs_batch).1 } : Backfill.PrcState)
       else s).all_old = s.all_old := fun s => by split <;> rfl
  unfold Backfill.prcStep Backfill.keepsOld
  rcases h : cs.closed_at with _ | c
  · simp only [h]
    rw [hflush]
    split_ifs <;> simp_all
  · simp only [h]
    by_cases hle : c ≤ cutoff
    · simp only [if_pos hle]
      rw [hflush]
      split_ifs <;> cases hsp : Backfill.shouldProcess ex cs <;>
        simp_all [Option.isSome_iff_ne_none]
    · simp only [if_neg hle]
      rw [hflush]
      split_ifs <;> simp_all
/-- Helper: the fold computes `all_old` as the conjunction of the per-
changeset contributions. -/
theorem foldl_all_old (ex : Int → Option ChangesetRec) (cutoff : Time)
    (batch_size : Nat) (dbOk : Bool) (l : List ChangesetRec) :
    ∀ st : Backfill.PrcState,
      ((l.foldl (Backfill.prcStep ex cutoff batch_size dbOk) st).all_old) =
        (st.all_old && l.all (Backfill.keepsOld ex cutoff)) := by
  induction l with
  | nil => intro st; simp
  | cons cs rest ih =>
    intro st
    rw [List.foldl_cons, ih, prcStep_all_old, List.all_cons, Bool.and_assoc]

/-- Helper: for a record with non-null `closed_at`, `keepsOld` holds
exactly when the record is already present and either old enough or
outdone on comments. -/
theorem keepsOld_iff (ex : Int → Option ChangesetRec) (cutoff : Time)
    (cs : ChangesetRec) (hcl : cs.closed_at.isSome) :
    Backfill.keepsOld ex cutoff cs = true ↔
      ∃ exr, ex cs.id = some exr ∧
        ((∃ c, cs.closed_at = some c ∧ c ≤ cutoff) ∨
         cs.comments_count < exr.comments_count) := by
  obtain ⟨c, hc⟩ := Option.isSome_iff_exists.mp hcl
  unfold Backfill.keepsOld Backfill.shouldProcess
  rcases hex : ex cs.id with _ | exr <;> rw [hc] <;> by_cases hle : c ≤ cutoff
  · simp [hle, hex]
  · simp [hle, hex]
  · simp only [if_pos hle]
    simp [hex, hc, hle]
  · simp only [if_neg hle]
    simp [hex, hc, hle]

/-- C3, amended.  In descending mode, `reached_cutoff = true` exactly
when the file yielded at least one parsed changeset and every parsed
changeset was already present in the store AND (its `closed_at` is
older-or-equal to `cutoff_date` OR the stored row has strictly more
comments than the incoming record).  The claim's version — which demands
`closed_at ≤ cutoff_date` for every changeset — is refuted by
`c3_counterexample`. -/
theorem c3_amended_reached_cutoff_iff (dbOk : Bool) (store : DbUtils.Store)
    (elems : List ChangesetElem) (batch_size : Nat) (cutoff : Time) :
    (Backfill.process_replication_content dbOk store elems batch_size cutoff).2.1 = true ↔
      (elems.filterMap Parsers.parse_changeset ≠ [] ∧
       ∀ cs ∈ elems.filterMap Parsers.parse_changeset,
         ∃ exr, DbUtils.lookup store cs.id = some exr ∧
           ((∃ c, cs.closed_at = some c ∧ c ≤ cutoff) ∨
            cs.comments_count < exr.comments_count)) := by
  have key : ((elems.filterMap Parsers.parse_changeset).all
      (Backfill.keepsOld (fun i => DbUtils.lookup store i) cutoff) = true) ↔
      (∀ cs ∈ elems.filterMap Parsers.parse_changeset,
        ∃ exr, DbUtils.lookup store cs.id = some exr ∧
          ((∃ c, cs.closed_at = some c ∧ c ≤ cutoff) ∨
           cs.comments_count < exr.comments_count)) := by
    rw [List.all_eq_true]
    constructor
    · intro h cs hmem
      obtain ⟨e, hin, hp⟩ := List.mem_filterMap.mp hmem
      exact (keepsOld_iff _ _ _ (parse_closed_at_isSome e cs hp)).mp (h cs hmem)
    · intro h cs hmem
      obtain ⟨e, hin, hp⟩ := List.mem_filterMap.mp hmem
      exact (keepsOld_iff _ _ _ (parse_closed_at_isSome e cs hp)).mpr (h cs hmem)
  unfold Backfill.process_replication_content
  by_cases he : (elems.filterMap Parsers.parse_changeset).isEmpty
  · simp_all [List.isEmpty_iff]
  · simp only [Bool.not_eq_true] at he
    have hne : elems.filterMap Parsers.parse_changeset ≠ [] := by
      simpa [List.isEmpty_iff] using he
    have hlen : decide (0 < (elems.filterMap Parsers.parse_changeset).length) = true := by
      simp [List.length_pos, hne]
    simp only [he, Bool.false_eq_true, if_false]
    split <;>
      (rw [foldl_all_old]
       simp only [Bool.true_and, hlen, Bool.and_true]
       rw [key]
       simp [hne])

/-- Helper: `updateRow` keeps the stored row's id. -/
theorem updateRow_id (exr cs : ChangesetRec) : (DbUtils.updateRow exr cs).id = exr.id :=
  rfl

/-- Helper: `updateRow` never turns a non-null `closed_at` into null. -/
theorem updateRow_closed_isSome (exr cs : ChangesetRec) (h : exr.closed_at.isSome) :
    (DbUtils.updateRow exr cs).closed_at.isSome := by
  unfold DbUtils.updateRow
  obtain ⟨t, ht⟩ := Option.isSome_iff_exists.mp h
  rcases hc : cs.closed_at with _ | c <;> simp [ht]

/-- Helper: looking up in a mapped store where the function keeps ids. -/
theorem lookup_map_update (s : DbUtils.Store) (cs : ChangesetRec) (i : Int) :
    DbUtils.lookup (s.map (fun r => if r.id = cs.id then DbUtils.updateRow r cs else r)) i =
      (DbUtils.lookup s i).map (fun r => if r.id = cs.id then DbUtils.updateRow r cs else r) := by
  unfold DbUtils.lookup
  rw [List.find?_map]
  have hfun : ((fun r : ChangesetRec => decide (r.id = i)) ∘
      (fun r => if r.id = cs.id then DbUtils.updateRow r cs else r)) =
      (fun r : ChangesetRec => decide (r.id = i)) := by
    funext r
    by_cases h : r.id = cs.id <;> simp [h, updateRow_id]
  rw [hfun]

/-- Helper: one `applyRow` step preserves the presence of a closed row. -/
theorem applyRow_preserves_closed (s : DbUtils.Store) (cs : ChangesetRec) (i : Int)
    (h : ∃ r, DbUtils.lookup s i = some r ∧ r.closed_at.isSome) :
    ∃ r2, DbUtils.lookup (DbUtils.applyRow s cs) i = some r2 ∧ r2.closed_at.isSome := by
  obtain ⟨r, hr, hcl⟩ := h
  unfold DbUtils.applyRow
  rcases h0 : DbUtils.lookup s cs.id with _ | w
  · refine ⟨r, ?_, hcl⟩
    unfold DbUtils.lookup at hr ⊢
    rw [List.find?_append, hr]
    rfl
  · rw [lookup_map_update, hr]
    by_cases hid : r.id = cs.id
    · exact ⟨DbUtils.updateRow r cs, by simp [hid], updateRow_closed_isSome r cs hcl⟩
    · exact ⟨r, by simp [hid], hcl⟩

/-- Helper: the fold of `applyRow` preserves the presence of a closed row. -/
theorem foldl_preserves_closed (l : List ChangesetRec) :
    ∀ (s : DbUtils.Store) (i : Int),
      (∃ r, DbUtils.lookup s i = some r ∧ r.closed_at.isSome) →
      ∃ r2, DbUtils.lookup (l.foldl DbUtils.applyRow s) i = some r2 ∧ r2.closed_at.isSome := by
  induction l with
  | nil => intro s i h; exact h
  | cons cs rest ih =>
    intro s i h
    exact ih (DbUtils.applyRow s cs) i (applyRow_preserves_closed s cs i h)

/-- Helper: the `DO UPDATE` clause preserves the closed-implies-not-open
property when the incoming record satisfies it. -/
theorem updateRow_inv (exr cs : ChangesetRec)
    (hex : exr.closed_at.isSome → exr.«open» = false)
    (hcs : cs.closed_at.isSome → cs.«open» = false) :
    (DbUtils.updateRow exr cs).closed_at.isSome → (DbUtils.updateRow exr cs).«open» = false := by
  unfold DbUtils.updateRow
  intro hcl
  by_cases hop : cs.«open» = false
  · simp [hop]
  · have hnone : cs.closed_at = none := by
      rcases h : cs.closed_at with _ | c
      · rfl
      · exact absurd (hcs (by simp [h])) hop
    simp only [hnone] at hcl ⊢
    rcases hx : exr.closed_at with _ | t
    · simp [hx] at hcl
    · simp only [if_neg hop]
      exact hex (by simp [hx])

/-- Helper: one `applyRow` step preserves the closed-implies-not-open
store invariant for a well-behaved record. -/
theorem applyRow_inv (s : DbUtils.Store) (cs : ChangesetRec)
    (hs : ∀ r ∈ s, r.closed_at.isSome → r.«open» = false)
    (hcs : cs.closed_at.isSome → cs.«open» = false) :
    ∀ r ∈ DbUtils.applyRow s cs, r.closed_at.isSome → r.«open» = false := by
  intro r hr
  unfold DbUtils.applyRow at hr
  rcases h0 : DbUtils.lookup s cs.id with _ | w <;> simp only [h0] at hr
  · rcases List.mem_append.mp hr with h | h
    · exact hs r h
    · rw [List.mem_singleton.mp h]
      exact hcs
  · obtain ⟨r0, hr0, rfl⟩ := List.mem_map.mp hr
    by_cases hid : r0.id = cs.id
    · rw [if_pos hid]
      exact updateRow_inv r0 cs (hs r0 hr0) hcs
    · rw [if_neg hid]
      exact hs r0 hr0

/-- Helper: the fold of `applyRow` preserves the store invariant when the
whole batch is well-behaved. -/
theorem foldl_applyRow_inv (l : List ChangesetRec) :
    ∀ s : DbUtils.Store, (∀ r ∈ s, r.closed_at.isSome → r.«open» = false) →
      (∀ cs ∈ l, cs.closed_at.isSome → cs.«open» = false) →
      ∀ r ∈ l.foldl DbUtils.applyRow s, r.closed_at.isSome → r.«open» = false := by
  induction l with
  | nil => intro s hs _ r hr; exact hs r hr
  | cons cs rest ih =>
    intro s hs hl r hr
    exact ih (DbUtils.applyRow s cs)
      (applyRow_inv s cs hs (hl cs (List.mem_cons_self cs rest)))
      (fun c hc => hl c (List.mem_cons_of_mem cs hc)) r hr

/-- Helper: the store after `upsert_changesets` is either unchanged or the
fold of `applyRow` over the filtered batch. -/
theorem upsert_fst_cases (dbOk : Bool) (store : DbUtils.Store) (batch : List ChangesetRec) :
    (DbUtils.upsert_changesets dbOk store batch).1 = store ∨
    (DbUtils.upsert_changesets dbOk store batch).1 =
      (batch.filter (DbUtils.keepRecord store)).foldl DbUtils.applyRow store := by
  unfold DbUtils.upsert_changesets
  dsimp only
  split_ifs <;> simp

/-- C2, amended, restricted to `db_utils.upsert_changesets` (the legacy
`catch_up.insert_changesets` overwrites `closed_at` unconditionally, see
`c2_counterexample`): the skip rule holds as stated; no row's `closed_at`
is ever regressed from non-null to null; and provided every incoming
record and every stored row with non-null `closed_at` has `open = false`
(the spec's data-model invariant), the resulting store also has
`open = false` on every row with non-null `closed_at`. -/
theorem c2_amended_upsert_closed_invariant (dbOk : Bool) (store : DbUtils.Store)
    (batch : List ChangesetRec)
    (hstore : ∀ r ∈ store, r.closed_at.isSome → r.«open» = false)
    (hbatch : ∀ cs ∈ batch, cs.closed_at.isSome → cs.«open» = false) :
    (∀ cs ∈ batch, ∀ exr, DbUtils.lookup store cs.id = some exr →
       exr.closed_at.isSome → cs.closed_at = none →
       DbUtils.keepRecord store cs = false) ∧
    (∀ i r, DbUtils.lookup store i = some r → r.closed_at.isSome →
       ∃ r2, DbUtils.lookup (DbUtils.upsert_changesets dbOk store batch).1 i = some r2 ∧
         r2.closed_at.isSome) ∧
    (∀ r ∈ (DbUtils.upsert_changesets dbOk store batch).1,
       r.closed_at.isSome → r.«open» = false) := by
  refine ⟨?_, ?_, ?_⟩
  · intro cs hcs exr hex hcl hnone
    unfold DbUtils.keepRecord
    simp [hex, hcl, hnone]
  · intro i r hr hcl
    rcases upsert_fst_cases dbOk store batch with h | h <;> rw [h]
    · exact ⟨r, hr, hcl⟩
    · exact foldl_preserves_closed _ store i ⟨r, hr, hcl⟩
  · intro r hr
    rcases upsert_fst_cases dbOk store batch with h | h <;> rw [h] at hr
    · exact hstore r hr
    · exact foldl_applyRow_inv _ store hstore
        (fun c hc => hbatch c (List.mem_filter.mp hc).1) r hr

/-- C2 amended witness: instantiation at a one-row store and a
well-behaved one-record batch. -/
theorem c2_amended_witness :
    (∀ cs ∈ [c2w], ∀ exr, DbUtils.lookup [c3Row] cs.id = some exr →
       exr.closed_at.isSome → cs.closed_at = none →
       DbUtils.keepRecord [c3Row] cs = false) ∧
    (∀ i r, DbUtils.lookup [c3Row] i = some r → r.closed_at.isSome →
       ∃ r2, DbUtils.lookup (DbUtils.upsert_changesets true [c3Row] [c2w]).1 i = some r2 ∧
         r2.closed_at.isSome) ∧
    (∀ r ∈ (DbUtils.upsert_changesets true [c3Row] [c2w]).1,
       r.closed_at.isSome → r.«open» = false) :=
  c2_amended_upsert_closed_invariant true [c3Row] [c2w] (by decide) (by decide)

/-- Helper: every non-`scan` event preserves the retry invariant. -/
theorem rstep_inv (s : Backfill.RetryState) (e : Backfill.REvent)
    (hinv : Backfill.RetryInv s) (hne : e ≠ Backfill.REvent.scan) :
    Backfill.RetryInv (Backfill.rstep s e) := by
  obtain ⟨hpot, hq, hz⟩ := hinv
  cases e with
  | scan => exact absurd rfl hne
  | initial fails =>
    by_cases h0 : s.attempts = 0
    · have hqe : s.queue = [] := hz h0
      have hstate : Backfill.rstep s (Backfill.REvent.initial fails) =
          Backfill.attemptOnce s 0 fails := by
        simp [Backfill.rstep, h0]
      rw [hstate]
      cases fails
      · refine ⟨?_, ?_, ?_⟩ <;>
          simp [Backfill.attemptOnce, Backfill.retryPotential, hqe, h0,
            Backfill.MAX_RETRIES]
      · refine ⟨?_, ?_, ?_⟩ <;>
          simp [Backfill.attemptOnce, Backfill.retryPotential, hqe, h0,
            Backfill.MAX_RETRIES]
    · have hstate : Backfill.rstep s (Backfill.REvent.initial fails) = s := by
        simp [Backfill.rstep, h0]
      rw [hstate]
      exact ⟨hpot, hq, hz⟩
  | dispatch fails =>
    rcases hqs : s.queue with _ | ⟨r, rest⟩
    · have hstate : Backfill.rstep s (Backfill.REvent.dispatch fails) = s := by
        simp [Backfill.rstep, hqs]
      rw [hstate]
      exact ⟨hpot, hq, hz⟩
    · have hr := hq r (by rw [hqs]; exact List.mem_cons_self r rest)
      have hrest : ∀ rc ∈ rest, 1 ≤ rc ∧ rc ≤ Backfill.MAX_RETRIES :=
        fun rc hrc => hq rc (by rw [hqs]; exact List.mem_cons_of_mem r hrc)
      rw [Backfill.retryPotential, hqs, List.map_cons, List.sum_cons] at hpot
      have hstate : Backfill.rstep s (Backfill.REvent.dispatch fails) =
          Backfill.attemptOnce { s with queue := rest } r fails := by
        simp [Backfill.rstep, hqs]
      rw [hstate]
      unfold Backfill.MAX_RETRIES at hpot hr hrest
      cases fails
      · have hstate2 : Backfill.attemptOnce { s with queue := rest } r false =
            { status := Backfill.SeqStatus.backfilled, attempts := s.attempts + 1,
              queue := rest } := rfl
        rw [hstate2]
        refine ⟨?_, ?_, ?_⟩
        · rw [Backfill.retryPotential]
          unfold Backfill.MAX_RETRIES
          simp only
          omega
        · exact hrest
        · intro habs
          simp at habs
      · have hstate2 : Backfill.attemptOnce { s with queue := rest } r true =
            { status := Backfill.SeqStatus.failed, attempts := s.attempts + 1,
              queue := if r < 3 then rest ++ [r + 1] else rest } := by
          simp [Backfill.attemptOnce, Backfill.MAX_RETRIES]
        rw [hstate2]
        by_cases hlt : r < 3
        · refine ⟨?_, ?_, ?_⟩
          · rw [Backfill.retryPotential]
            unfold Backfill.MAX_RETRIES
            simp only [if_pos hlt, List.map_append, List.sum_append, List.map_cons,
              List.sum_cons, List.map_nil, List.sum_nil]
            omega
          · intro rc hrc
            simp only [if_pos hlt] at hrc
            rcases List.mem_append.mp hrc with hmem | hmem
            · exact hrest rc hmem
            · rw [List.mem_singleton.mp hmem]
              unfold Backfill.MAX_RETRIES
              omega
          · intro habs
            simp at habs
        · refine ⟨?_, ?_, ?_⟩
          · rw [Backfill.retryPotential]
            unfold Backfill.MAX_RETRIES
            simp only [if_neg hlt]
            omega
          · intro rc hrc
            simp only [if_neg hlt] at hrc
            exact hrest rc hrc
          · intro habs
            simp at habs

/-- Helper: folding scan-free events preserves the retry invariant. -/
theorem foldl_rstep_inv (evs : List Backfill.REvent) :
    ∀ s0 : Backfill.RetryState, Backfill.RetryInv s0 →
      (∀ e ∈ evs, e ≠ Backfill.REvent.scan) →
      Backfill.RetryInv (evs.foldl Backfill.rstep s0) := by
  induction evs with
  | nil => intro s0 hb _; exact hb
  | cons e rest ih =>
    intro s0 hb h
    rw [List.foldl_cons]
    exact ih _ (rstep_inv s0 e hb (h e (List.mem_cons_self e rest)))
      (fun x hx => h x (List.mem_cons_of_mem e hx))

/-- Helper: the retry invariant holds after any scan-free event sequence. -/
theorem runRetry_inv (evs : List Backfill.REvent)
    (h : ∀ e ∈ evs, e ≠ Backfill.REvent.scan) :
    Backfill.RetryInv (Backfill.runRetry evs) := by
  unfold Backfill.runRetry
  refine foldl_rstep_inv evs _ ?_ h
  refine ⟨?_, ?_, ?_⟩ <;> simp [Backfill.retryPotential]
/-- C8, amended.  The worker retry path alone is bounded: in any run
without the retry manager's periodic database scan, a sequence is
attempted at most `MAX_RETRIES + 1` times, and every queued retry count
stays within `[1, MAX_RETRIES]`.  The periodic scan voids the bound by
re-enqueueing any failed sequence with `retry_count = 1`
(see `c8_counterexample`). -/
theorem c8_amended_scanfree_bound (evs : List Backfill.REvent)
    (h : ∀ e ∈ evs, e ≠ Backfill.REvent.scan) :
    (Backfill.runRetry evs).attempts ≤ Backfill.MAX_RETRIES + 1 ∧
    ∀ rc ∈ (Backfill.runRetry evs).queue, 1 ≤ rc ∧ rc ≤ Backfill.MAX_RETRIES := by
  obtain ⟨hpot, hq, hz⟩ := runRetry_inv evs h
  refine ⟨?_, hq⟩
  rw [Backfill.retryPotential] at hpot
  omega

/-- C8 amended witness: the bound instantiated on a concrete scan-free
run of two failing attempts. -/
theorem c8_amended_witness :
    (Backfill.runRetry [Backfill.REvent.initial true,
        Backfill.REvent.dispatch true]).attempts ≤ Backfill.MAX_RETRIES + 1 ∧
    ∀ rc ∈ (Backfill.runRetry [Backfill.REvent.initial true,
        Backfill.REvent.dispatch true]).queue,
      1 ≤ rc ∧ rc ≤ Backfill.MAX_RETRIES :=
  c8_amended_scanfree_bound
    [Backfill.REvent.initial true, Backfill.REvent.dispatch true] (by decide)
